import Mathlib

/-!
Shallow embedding of `src/script.js` (browser polyphonic synthesizer).

Conventions of the embedding:
* JS numbers that only ever hold finitely-representable values computed by
  `+`, `*`, `Math.max`, comparisons are modelled as `ℚ`.
* The two places that compute irrational values (`Math.pow` with fractional
  exponents in `noteOn` line 631 and `mapCC` case 1) are modelled over `ℝ`
  with `Real.rpow`.
* Web Audio side effects (scheduling ramps on an `AudioParam`, stopping
  oscillators, disconnecting nodes) are modelled as explicit event lists
  recorded in the voice state or returned as action traces.
* `Map` objects use JS insertion-order semantics: `set` of an existing key
  updates the value in place, otherwise appends; `delete` removes; the first
  key in insertion order is the head of the list.
-/

namespace Synth

/-- Filter type enumeration. The source stores the filter type as one of the
strings used by `BiquadFilterNode` (`script.js` line 46, `randomizeSettings`
line 832). -/
inductive FilterType
  | lowpass
  | highpass
  | bandpass
  | notch
deriving DecidableEq

/-- The flat settings mapping, `script.js` lines 21-66 (`defaultSettings`
shape, shared mutable `settings` at line 68). Waveforms are stored as their
numeric index into the `waveforms` array, exactly as in the source. -/
structure Settings where
  arpEnabled : Bool
  arpRate : ℚ
  osc1_waveform : ℚ
  osc1_octave : ℚ
  osc1_semi : ℚ
  osc1_detune : ℚ
  osc1_pan : ℚ
  osc1_gain : ℚ
  osc2_waveform : ℚ
  osc2_octave : ℚ
  osc2_semi : ℚ
  osc2_detune : ℚ
  osc2_pan : ℚ
  osc2_gain : ℚ
  osc3_waveform : ℚ
  osc3_octave : ℚ
  osc3_semi : ℚ
  osc3_detune : ℚ
  osc3_pan : ℚ
  osc3_gain : ℚ
  filterType : FilterType
  filterFreq : ℚ
  filterQ : ℚ
  filterEnvAmt : ℚ
  f_attack : ℚ
  f_decay : ℚ
  f_sustain : ℚ
  f_release : ℚ
  attack : ℚ
  decay : ℚ
  sustain : ℚ
  release : ℚ
  tremRate : ℚ
  tremDepth : ℚ
  pan : ℚ
  volume : ℚ
deriving DecidableEq

/-- `defaultSettings`, `script.js` lines 21-66. -/
def defaultSettings : Settings where
  arpEnabled := false
  arpRate := 120
  osc1_waveform := 2
  osc1_octave := 0
  osc1_semi := 0
  osc1_detune := 0
  osc1_pan := 0
  osc1_gain := (1/2 : ℚ)
  osc2_waveform := 2
  osc2_octave := 0
  osc2_semi := 0
  osc2_detune := 0
  osc2_pan := 0
  osc2_gain := (1/2 : ℚ)
  osc3_waveform := 2
  osc3_octave := -1
  osc3_semi := 0
  osc3_detune := 0
  osc3_pan := 0
  osc3_gain := (1/2 : ℚ)
  filterType := FilterType.lowpass
  filterFreq := 2000
  filterQ := 1
  filterEnvAmt := 0
  f_attack := (1/10 : ℚ)
  f_decay := (1/10 : ℚ)
  f_sustain := (1/2 : ℚ)
  f_release := (1/2 : ℚ)
  attack := (1/10 : ℚ)
  decay := (1/10 : ℚ)
  sustain := (1/2 : ℚ)
  release := (1/2 : ℚ)
  tremRate := 5
  tremDepth := 0
  pan := 0
  volume := (1/2 : ℚ)

/-- One scheduled automation event on a Web Audio `AudioParam` track.
`cancel` is `cancelScheduledValues(t)`, `setValue` is `setValueAtTime(v, t)`,
`linearRamp` is `linearRampToValueAtTime(v, t)` and `expRamp` is
`exponentialRampToValueAtTime(v, t)`. -/
inductive AutoEvent
  | cancel (t : ℚ)
  | setValue (v t : ℚ)
  | linearRamp (v t : ℚ)
  | expRamp (v t : ℚ)
deriving DecidableEq

/-- Parameter names that flow through `updateParams` and `mapCC`. The source
uses strings (with the oscillator index parsed from the numeric suffix of
names like `osc2_pan`, `script.js` line 280); here the parsed index is
carried explicitly. -/
inductive Param
  | filterFreq
  | filterQ
  | filterEnvAmt
  | tremRate
  | tremDepth
  | pan
  | attack
  | decay
  | sustain
  | release
  | f_attack
  | f_decay
  | f_sustain
  | f_release
  | volume
  | arpRate
  | osc_waveform (i : ℕ)
  | osc_octave (i : ℕ)
  | osc_semi (i : ℕ)
  | osc_detune (i : ℕ)
  | osc_pan (i : ℕ)
  | osc_gain (i : ℕ)
deriving DecidableEq

/-- Per-voice state of `SynthVoice`. Fields record the `.value` assignments
performed by `trigger` (`script.js` lines 88-205) on the live node handles,
plus the two envelope automation tracks. The oscillator frequency itself is
real-valued and is modelled separately by `noteOnFreq` (see below); the voice
records its note number as the source does (`this.note`). -/
structure SynthVoice where
  active : Bool
  note : Option ℤ
  masterPanValue : ℚ
  tremRateValue : ℚ
  tremDepthValue : ℚ
  filterTypeValue : FilterType
  filterFreqValue : ℚ
  filterQValue : ℚ
  filterEnvAmtValue : ℚ
  oscWaveforms : List ℚ
  oscDetunes : List ℚ
  oscGainValues : List ℚ
  oscPanValues : List ℚ
  ampSchedule : List AutoEvent
  filterEnvSchedule : List AutoEvent
deriving DecidableEq

/-- A freshly constructed `new SynthVoice(ctx, dest)` (`script.js` lines
72-86): inactive, no note, all node handles null (numeric handle values
modelled as 0 / empty lists; they are only meaningful after `trigger`). -/
def newSynthVoice : SynthVoice where
  active := false
  note := none
  masterPanValue := 0
  tremRateValue := 0
  tremDepthValue := 0
  filterTypeValue := FilterType.lowpass
  filterFreqValue := 0
  filterQValue := 0
  filterEnvAmtValue := 0
  oscWaveforms := []
  oscDetunes := []
  oscGainValues := []
  oscPanValues := []
  ampSchedule := []
  filterEnvSchedule := []

/-- Total detune in cents for oscillator `i` (1-based), from the current
settings: `(oct * 1200) + (semi * 100) + fine` (`script.js` lines 166-169 and
294-297). -/
def oscTotalCents (s : Settings) (i : ℕ) : ℚ :=
  match i with
  | 1 => s.osc1_octave * 1200 + s.osc1_semi * 100 + s.osc1_detune
  | 2 => s.osc2_octave * 1200 + s.osc2_semi * 100 + s.osc2_detune
  | 3 => s.osc3_octave * 1200 + s.osc3_semi * 100 + s.osc3_detune
  | _ => 0

/-- `SynthVoice.trigger(freq, noteNum)`, `script.js` lines 88-205. Builds the
graph and records every `.value` assignment and both envelope schedules, at
trigger time `now` (`ctx.currentTime`). The base cutoff is clamped to 10000
for a lowpass filter (lines 125-127). The amp envelope (lines 187-194) is:
cancel, value 0 at `now`, linear ramp to 1 over `max(1/1000, attack)`, then an
exponential ramp to `max(1/10000, sustain)` over `max(1/1000, decay)`. The
filter envelope (lines 197-204) ramps the normalized offset 0 to 1 to
`f_sustain` with linear ramps. -/
def SynthVoice.trigger (v : SynthVoice) (s : Settings) (noteNum : ℤ) (now : ℚ) : SynthVoice :=
  let baseF := if s.filterType = FilterType.lowpass ∧ s.filterFreq > 10000 then (10000 : ℚ) else s.filterFreq
  let a := max (1/1000 : ℚ) s.attack
  let d := max (1/1000 : ℚ) s.decay
  let sus := max (1/10000 : ℚ) s.sustain
  let fa := max (1/1000 : ℚ) s.f_attack
  let fd := max (1/1000 : ℚ) s.f_decay
  let fs := s.f_sustain
  { v with
    note := some noteNum
    active := true
    masterPanValue := s.pan
    tremRateValue := s.tremRate
    tremDepthValue := s.tremDepth
    filterTypeValue := s.filterType
    filterFreqValue := baseF
    filterQValue := s.filterQ
    filterEnvAmtValue := s.filterEnvAmt
    oscWaveforms := [s.osc1_waveform, s.osc2_waveform, s.osc3_waveform]
    oscDetunes := [oscTotalCents s 1, oscTotalCents s 2, oscTotalCents s 3]
    oscGainValues := [s.osc1_gain, s.osc2_gain, s.osc3_gain]
    oscPanValues := [s.osc1_pan, s.osc2_pan, s.osc3_pan]
    ampSchedule := [AutoEvent.cancel now, AutoEvent.setValue 0 now,
                    AutoEvent.linearRamp 1 (now + a),
                    AutoEvent.expRamp sus (now + a + d)]
    filterEnvSchedule := [AutoEvent.cancel now, AutoEvent.setValue 0 now,
                          AutoEvent.linearRamp 1 (now + fa),
                          AutoEvent.linearRamp fs (now + fa + fd)] }

/-- Side effects performed by `SynthVoice.release` (`script.js` lines
207-234): envelope ramp-down scheduling, oscillator stops, and the deferred
`disconnect` timeout. `ampSetCurrent` and `fenvSetCurrent` stand for
`setValueAtTime(param.value, now)` on the current instantaneous value. -/
inductive ReleaseAction
  | ampCancel (t : ℚ)
  | ampSetCurrent (t : ℚ)
  | ampLinearRamp (v t : ℚ)
  | fenvCancel (t : ℚ)
  | fenvSetCurrent (t : ℚ)
  | fenvLinearRamp (v t : ℚ)
  | oscStop (t : ℚ)
  | tremStop (t : ℚ)
  | fenvSrcStop (t : ℚ)
  | scheduleDisconnect (delaySeconds : ℚ)
deriving DecidableEq

/-- `SynthVoice.release()`, `script.js` lines 207-234. Returns the voice
state after the call together with the trace of scheduling actions the call
performs. A voice that is not active returns immediately with no actions
(line 208). Otherwise the active flag is cleared, the amp and filter
envelopes ramp to 0 over `max(1/1000, release)` / `max(1/1000, f_release)`,
the three oscillators and the tremolo oscillator stop at `now + r + 1/10`,
the filter envelope source stops `f_release` later, and disconnection is
scheduled after `max(r, fr) + 1/5` seconds. -/
def SynthVoice.release (v : SynthVoice) (s : Settings) (now : ℚ) : SynthVoice × List ReleaseAction :=
  if !v.active then (v, [])
  else
    let r := max (1/1000 : ℚ) s.release
    let fr := max (1/1000 : ℚ) s.f_release
    let stopTime := now + r + (1/10 : ℚ)
    ({ v with active := false },
      [ReleaseAction.ampCancel now, ReleaseAction.ampSetCurrent now,
       ReleaseAction.ampLinearRamp 0 (now + r),
       ReleaseAction.fenvCancel now, ReleaseAction.fenvSetCurrent now,
       ReleaseAction.fenvLinearRamp 0 (now + fr),
       ReleaseAction.oscStop stopTime, ReleaseAction.oscStop stopTime,
       ReleaseAction.oscStop stopTime, ReleaseAction.tremStop stopTime,
       ReleaseAction.fenvSrcStop (stopTime + fr),
       ReleaseAction.scheduleDisconnect (max r fr + (1/5 : ℚ))])

/-- Identifies the live `AudioParam` (or node attribute) targeted by one
`updateParams` branch (`script.js` lines 251-306). -/
inductive AudioParamId
  | filterFrequency
  | filterQ
  | filterEnvGain
  | tremFrequency
  | tremDepth
  | masterPan
  | oscGain (i : ℕ)
  | oscPan (i : ℕ)
  | oscDetune (i : ℕ)
deriving DecidableEq

/-- One live update performed by `updateParams`: either a smoothed
`setTargetAtTime(value, now, timeConstant)` or a discrete waveform type
assignment. -/
inductive UAction
  | setTarget (target : AudioParamId) (value now timeConstant : ℚ)
  | setWaveform (oscIndex : ℕ) (waveIndex : ℚ)
deriving DecidableEq

/-- `SynthVoice.updateParams(param, value)`, `script.js` lines 251-306.
No-op when the voice is inactive (line 252). Every numeric update uses the
smoothing constant (1/20 : ℚ) (line 254). A `filterFreq` update re-clamps the
target to 10000 when the current filter type is lowpass (lines 258-260).
Oscillator parameters carry the 1-based index parsed from the name; the
`this.oscillators[index]` existence check (line 285) becomes the bound check
`1 ≤ i ∧ i ≤ 3`. Detune, semi and octave edits recompute the total cents
from the settings (lines 292-298); waveform changes apply discretely (lines
300-302). Parameters with no matching branch produce no actions. -/
def SynthVoice.updateParams (v : SynthVoice) (s : Settings) (param : Param) (value : ℚ) (now : ℚ) :
    List UAction :=
  if !v.active then []
  else
    let smooth : ℚ := (1/20 : ℚ)
    match param with
    | Param.filterFreq =>
        let target := if s.filterType = FilterType.lowpass ∧ value > 10000 then (10000 : ℚ) else value
        [UAction.setTarget AudioParamId.filterFrequency target now smooth]
    | Param.filterEnvAmt => [UAction.setTarget AudioParamId.filterEnvGain value now smooth]
    | Param.filterQ => [UAction.setTarget AudioParamId.filterQ value now smooth]
    | Param.tremRate => [UAction.setTarget AudioParamId.tremFrequency value now smooth]
    | Param.tremDepth => [UAction.setTarget AudioParamId.tremDepth value now smooth]
    | Param.pan => [UAction.setTarget AudioParamId.masterPan value now smooth]
    | Param.osc_gain i =>
        if 1 ≤ i ∧ i ≤ 3 then [UAction.setTarget (AudioParamId.oscGain (i - 1)) value now smooth] else []
    | Param.osc_pan i =>
        if 1 ≤ i ∧ i ≤ 3 then [UAction.setTarget (AudioParamId.oscPan (i - 1)) value now smooth] else []
    | Param.osc_detune i =>
        if 1 ≤ i ∧ i ≤ 3 then [UAction.setTarget (AudioParamId.oscDetune (i - 1)) (oscTotalCents s i) now smooth] else []
    | Param.osc_semi i =>
        if 1 ≤ i ∧ i ≤ 3 then [UAction.setTarget (AudioParamId.oscDetune (i - 1)) (oscTotalCents s i) now smooth] else []
    | Param.osc_octave i =>
        if 1 ≤ i ∧ i ≤ 3 then [UAction.setTarget (AudioParamId.oscDetune (i - 1)) (oscTotalCents s i) now smooth] else []
    | Param.osc_waveform i =>
        if 1 ≤ i ∧ i ≤ 3 then [UAction.setWaveform (i - 1) value] else []
    | _ => []

/-- `const MAX_VOICES = 8`, `script.js` line 10. -/
def MAX_VOICES : ℕ := 8

/-- Allocator-level events: `released n` records a `voice.release()` call on
the voice keyed by `n`, `triggered n` records `voice.trigger(freq, n)`. -/
inductive AllocAction
  | released (n : ℤ)
  | triggered (n : ℤ)
deriving DecidableEq

/-- The `activeVoices` JS `Map`, `script.js` line 311, as an
insertion-ordered association list. -/
abbrev VoiceMap := List (ℤ × SynthVoice)

/-- JS `Map.prototype.set`: updating an existing key keeps its insertion
position, a new key is appended last. -/
def mapSet (m : VoiceMap) (k : ℤ) (v : SynthVoice) : VoiceMap :=
  if m.any (fun p => p.1 == k) then m.map (fun p => if p.1 == k then (k, v) else p)
  else m ++ [(k, v)]

/-- JS `Map.prototype.delete`. -/
def mapDelete (m : VoiceMap) (k : ℤ) : VoiceMap :=
  m.filter (fun p => p.1 != k)

/-- The voice-stealing prelude of `noteOn`, `script.js` lines 624-629: when
the map already holds `MAX_VOICES` voices, the first inserted key is fetched
(`activeVoices.keys().next().value`), its voice released, and the key
deleted. Returns the surviving map and the eviction trace. -/
def noteOnEvict (m : VoiceMap) : VoiceMap × List AllocAction :=
  if MAX_VOICES ≤ m.length then
    match m with
    | [] => ([], [])
    | (firstNote, _oldVoice) :: _ => (mapDelete m firstNote, [AllocAction.released firstNote])
  else (m, [])

/-- `noteOn(noteNum, velocity)`, `script.js` lines 622-635: evict if at the
polyphony ceiling, create a fresh `SynthVoice`, trigger it at
`440 * 2^((noteNum - 69) / 12)` Hz (the frequency value itself is modelled
by `noteOnFreq` below), and insert it keyed by `noteNum`. The `velocity`
argument is unused by the source body. -/
def noteOn (s : Settings) (m : VoiceMap) (noteNum : ℤ) (now : ℚ) : VoiceMap × List AllocAction :=
  (mapSet (noteOnEvict m).1 noteNum (SynthVoice.trigger newSynthVoice s noteNum now),
   (noteOnEvict m).2 ++ [AllocAction.triggered noteNum])

/-- `noteOff(noteNum)`, `script.js` lines 637-643: release and remove the
voice for `noteNum` if one exists, otherwise do nothing. -/
def noteOff (m : VoiceMap) (noteNum : ℤ) : VoiceMap × List AllocAction :=
  if m.any (fun p => p.1 == noteNum) then (mapDelete m noteNum, [AllocAction.released noteNum])
  else (m, [])

/-- A note event reaching the allocator. -/
inductive NoteEvent
  | on (n : ℤ)
  | off (n : ℤ)
deriving DecidableEq

/-- Runs a sequence of `noteOn` / `noteOff` calls against the voice map. -/
def runEvents (s : Settings) (now : ℚ) : List NoteEvent → VoiceMap → VoiceMap
  | [], m => m
  | NoteEvent.on n :: rest, m => runEvents s now rest (noteOn s m n now).1
  | NoteEvent.off n :: rest, m => runEvents s now rest (noteOff m n).1

/-- The frequency computed by `noteOn`, `script.js` line 631:
`440 * Math.pow(2, (noteNum - 69) / 12)`. -/
noncomputable def noteOnFreq (noteNum : ℤ) : ℝ :=
  440 * (2 : ℝ) ^ (((noteNum : ℝ) - 69) / 12)

/-- `const arpPattern = [0, 4, 7, 12]`, `script.js` line 8. -/
def arpPattern : List ℤ := [0, 4, 7, 12]

/-- Arpeggiator state: the monotonically advancing step index (`arpIndex`,
`script.js` line 9) and the last emitted note (`lastArpNote`, line 677). -/
structure ArpState where
  arpIndex : ℕ
  lastArpNote : Option ℤ
deriving DecidableEq

/-- `playArpStep()`, `script.js` lines 693-699: pitch is base note 60 plus
the pattern entry at `arpIndex % arpPattern.length`; the index then advances
and the note is emitted via `noteOn(note, 100)`. -/
def playArpStep (st : ArpState) : ArpState × ℤ :=
  let baseNote : ℤ := 60
  let offset := arpPattern.getD (st.arpIndex % arpPattern.length) 0
  let note := baseNote + offset
  ({ arpIndex := st.arpIndex + 1, lastArpNote := some note }, note)

/-- `startArp()`, `script.js` lines 679-691: reset `arpIndex` to 0 and
immediately play the first step (the recurring timer then repeats the
release-then-step cycle). -/
def startArp (st : ArpState) : ArpState × ℤ :=
  playArpStep { st with arpIndex := 0 }

/-- Iterates `playArpStep` `n` times, collecting the emitted notes in
order (each interval tick at `script.js` lines 683-690 releases the
previous note and calls `playArpStep` once). -/
def arpTicks : ℕ → ArpState → ArpState × List ℤ
  | 0, st => (st, [])
  | Nat.succ n, st =>
    let r := playArpStep st
    let rest := arpTicks n r.1
    (rest.1, r.2 :: rest.2)

/-- The note sequence emitted by starting the arpeggiator and stepping it
`n` times in total (the start itself emits the first step). -/
def startArpNotes (st : ArpState) (n : ℕ) : List ℤ :=
  (arpTicks n { st with arpIndex := 0 }).2

/-- Result of one `handleNoteMsg` dispatch (`script.js` lines 464-491),
abstracting the called handler. `clockTick` is the `handleMidiClock()` call,
`arpStart` / `arpStop` are the guarded `startNoteSequence()` /
`stopNoteSequence()` calls, and `ignored` is a plain return. -/
inductive MidiEffect
  | clockTick
  | arpStart
  | arpStop
  | noteOnMsg (note vel : ℕ)
  | noteOffMsg (note : ℕ)
  | ignored
deriving DecidableEq

/-- `handleNoteMsg(event)`, `script.js` lines 464-491. Realtime status bytes
0xF8 / 0xFA / 0xFC are handled first and return before the channel filter
(line 483) is consulted; the 0xFA / 0xFC branches are guarded by
`settings.arpEnabled` and the `isPlaying` flag exactly as in the source.
Note-on with velocity 0 is treated as note-off (lines 485-487). -/
def handleNoteMsg (arpEnabled isPlaying : Bool) (selectedMidiChannel : ℤ)
    (status data1 data2 : ℕ) : MidiEffect :=
  if status = 0xF8 then MidiEffect.clockTick
  else if status = 0xFA then
    (if arpEnabled && !isPlaying then MidiEffect.arpStart else MidiEffect.ignored)
  else if status = 0xFC then
    (if arpEnabled && isPlaying then MidiEffect.arpStop else MidiEffect.ignored)
  else
    let command := status &&& 0xf0
    let channel := status &&& 0x0f
    if selectedMidiChannel ≠ -1 ∧ (channel : ℤ) ≠ selectedMidiChannel then MidiEffect.ignored
    else if command = 144 then
      (if data2 > 0 then MidiEffect.noteOnMsg data1 data2 else MidiEffect.noteOffMsg data1)
    else if command = 128 then MidiEffect.noteOffMsg data1
    else MidiEffect.ignored

/-- `mapCC(cc, val)` value table, `script.js` lines 527-559. The incoming
controller number is remapped 1-based (`targetCC = cc + 1`, line 533) and
`norm = val / 127` (line 528). Case 1 maps the cutoff logarithmically with a
lower base for the lowpass type; cases 13-15 round to integer semitones
(`Math.round` is round-half-up, matching Mathlib `round`). Unmatched
controllers yield no parameter edit. -/
noncomputable def mapCC (filterTypeSetting : FilterType) (cc val : ℕ) : Option (Param × ℝ) :=
  let norm : ℝ := (val : ℝ) / 127
  match cc + 1 with
  | 1 => some (Param.filterFreq,
      if filterTypeSetting = FilterType.lowpass then 20 * (500 : ℝ) ^ norm
      else 20 * (1000 : ℝ) ^ norm)
  | 2 => some (Param.filterQ, norm * 20)
  | 3 => some (Param.tremRate, (1 : ℝ)/10 + norm * (199/10))
  | 4 => some (Param.tremDepth, norm)
  | 5 => some (Param.attack, norm * 2)
  | 6 => some (Param.decay, norm * 2)
  | 7 => some (Param.sustain, norm)
  | 8 => some (Param.release, norm * 3)
  | 9 => some (Param.f_attack, norm * 2)
  | 10 => some (Param.f_decay, norm * 2)
  | 11 => some (Param.f_sustain, norm)
  | 12 => some (Param.f_release, norm * 3)
  | 13 => some (Param.osc_semi 1, ((round (norm * 24 - 12) : ℤ) : ℝ))
  | 14 => some (Param.osc_semi 2, ((round (norm * 24 - 12) : ℤ) : ℝ))
  | 15 => some (Param.osc_semi 3, ((round (norm * 24 - 12) : ℤ) : ℝ))
  | 16 => some (Param.pan, norm * 2 - 1)
  | _ => none

/-- The parameter targeted by each 1-based CC index in the `mapCC` switch
(`script.js` lines 535-559), written from the claim side to compare with
`mapCC`: index `n` here corresponds to incoming controller number `n - 1`. -/
def ccIndexParam : ℕ → Option Param
  | 1 => some Param.filterFreq
  | 2 => some Param.filterQ
  | 3 => some Param.tremRate
  | 4 => some Param.tremDepth
  | 5 => some Param.attack
  | 6 => some Param.decay
  | 7 => some Param.sustain
  | 8 => some Param.release
  | 9 => some Param.f_attack
  | 10 => some Param.f_decay
  | 11 => some Param.f_sustain
  | 12 => some Param.f_release
  | 13 => some (Param.osc_semi 1)
  | 14 => some (Param.osc_semi 2)
  | 15 => some (Param.osc_semi 3)
  | 16 => some Param.pan
  | _ => none

/-- Writes one parameter value into the settings mapping
(`settings[param] = val`, `script.js` lines 562 and 596). Only the
parameters reachable from `updateParams` / `mapCC` / the UI edit handler are
representable; an out-of-range oscillator index leaves the mapping
unchanged. -/
def setParam (s : Settings) (p : Param) (v : ℚ) : Settings :=
  match p with
  | Param.filterFreq => { s with filterFreq := v }
  | Param.filterQ => { s with filterQ := v }
  | Param.filterEnvAmt => { s with filterEnvAmt := v }
  | Param.tremRate => { s with tremRate := v }
  | Param.tremDepth => { s with tremDepth := v }
  | Param.pan => { s with pan := v }
  | Param.attack => { s with attack := v }
  | Param.decay => { s with decay := v }
  | Param.sustain => { s with sustain := v }
  | Param.release => { s with release := v }
  | Param.f_attack => { s with f_attack := v }
  | Param.f_decay => { s with f_decay := v }
  | Param.f_sustain => { s with f_sustain := v }
  | Param.f_release => { s with f_release := v }
  | Param.volume => { s with volume := v }
  | Param.arpRate => { s with arpRate := v }
  | Param.osc_waveform i =>
    match i with
    | 1 => { s with osc1_waveform := v }
    | 2 => { s with osc2_waveform := v }
    | 3 => { s with osc3_waveform := v }
    | _ => s
  | Param.osc_octave i =>
    match i with
    | 1 => { s with osc1_octave := v }
    | 2 => { s with osc2_octave := v }
    | 3 => { s with osc3_octave := v }
    | _ => s
  | Param.osc_semi i =>
    match i with
    | 1 => { s with osc1_semi := v }
    | 2 => { s with osc2_semi := v }
    | 3 => { s with osc3_semi := v }
    | _ => s
  | Param.osc_detune i =>
    match i with
    | 1 => { s with osc1_detune := v }
    | 2 => { s with osc2_detune := v }
    | 3 => { s with osc3_detune := v }
    | _ => s
  | Param.osc_pan i =>
    match i with
    | 1 => { s with osc1_pan := v }
    | 2 => { s with osc2_pan := v }
    | 3 => { s with osc3_pan := v }
    | _ => s
  | Param.osc_gain i =>
    match i with
    | 1 => { s with osc1_gain := v }
    | 2 => { s with osc2_gain := v }
    | 3 => { s with osc3_gain := v }
    | _ => s

/-- In-memory settings plus the `localStorage` snapshot under the fixed key
`synthSettings` (`none` when nothing has been stored). -/
structure AppState where
  settings : Settings
  storage : Option Settings
deriving DecidableEq

/-- The UI `input` event handler, `script.js` lines 589-605: write the new
value into `settings`, update the display and the audio graph (or the
arpeggiator driver), then `saveSettings()` — a full snapshot of the updated
settings. -/
def uiInputHandler (st : AppState) (p : Param) (v : ℚ) : AppState :=
  let s2 := setParam st.settings p v
  { settings := s2, storage := some s2 }

/-- The tail of `mapCC` for a matched controller, `script.js` lines 561-573:
write `mappedVal` into `settings`, update the UI mirror and the live voices
via `updateAudioParams`. No `saveSettings()` call occurs on this path, so
the storage snapshot is left untouched. -/
def mapCCApply (st : AppState) (p : Param) (mappedVal : ℚ) : AppState :=
  { settings := setParam st.settings p mappedVal, storage := st.storage }

/-- A JSON scalar stored in the persisted settings object. -/
inductive SVal
  | num (q : ℚ)
  | str (s : String)
  | bool (b : Bool)
deriving DecidableEq

/-- A JSON object as an ordered association list of string keys. -/
abbrev SettingsObj := List (String × SVal)

/-- First-match key lookup in a JSON object. -/
def lookupObj : SettingsObj → String → Option SVal
  | [], _ => none
  | (k1, v1) :: rest, key => if k1 = key then some v1 else lookupObj rest key

/-- JS object spread `{ ...base, ...upd }`: keys of `base` keep their
positions with values overridden by `upd` where present; keys only in `upd`
are appended in order. -/
def objSpread (base upd : SettingsObj) : SettingsObj :=
  base.map (fun p =>
    match lookupObj upd p.1 with
    | some v2 => (p.1, v2)
    | none => p) ++
  upd.filter (fun q => (lookupObj base q.1).isNone)

/-- `defaultSettings` as the persisted JSON object shape, `script.js` lines
21-66. -/
def defaultSettingsObj : SettingsObj :=
  [("arpEnabled", SVal.bool false),
   ("arpRate", SVal.num 120),
   ("osc1_waveform", SVal.num 2),
   ("osc1_octave", SVal.num 0),
   ("osc1_semi", SVal.num 0),
   ("osc1_detune", SVal.num 0),
   ("osc1_pan", SVal.num 0),
   ("osc1_gain", SVal.num (1/2 : ℚ)),
   ("osc2_waveform", SVal.num 2),
   ("osc2_octave", SVal.num 0),
   ("osc2_semi", SVal.num 0),
   ("osc2_detune", SVal.num 0),
   ("osc2_pan", SVal.num 0),
   ("osc2_gain", SVal.num (1/2 : ℚ)),
   ("osc3_waveform", SVal.num 2),
   ("osc3_octave", SVal.num (-1)),
   ("osc3_semi", SVal.num 0),
   ("osc3_detune", SVal.num 0),
   ("osc3_pan", SVal.num 0),
   ("osc3_gain", SVal.num (1/2 : ℚ)),
   ("filterType", SVal.str ("lowpass")),
   ("filterFreq", SVal.num 2000),
   ("filterQ", SVal.num 1),
   ("filterEnvAmt", SVal.num 0),
   ("f_attack", SVal.num (1/10 : ℚ)),
   ("f_decay", SVal.num (1/10 : ℚ)),
   ("f_sustain", SVal.num (1/2 : ℚ)),
   ("f_release", SVal.num (1/2 : ℚ)),
   ("attack", SVal.num (1/10 : ℚ)),
   ("decay", SVal.num (1/10 : ℚ)),
   ("sustain", SVal.num (1/2 : ℚ)),
   ("release", SVal.num (1/2 : ℚ)),
   ("tremRate", SVal.num 5),
   ("tremDepth", SVal.num 0),
   ("pan", SVal.num 0),
   ("volume", SVal.num (1/2 : ℚ))]

/-- `loadSettings()`, `script.js` lines 727-735. The storage state is
`none` when no item is stored under the key; `some none` when the stored
string fails `JSON.parse`; `some (some parsed)` when it parses. With no
stored item the current settings are left unchanged; a parse failure falls
back to a fresh copy of the defaults; otherwise the parsed keys are spread
over the defaults. -/
def loadSettings : Option (Option SettingsObj) → SettingsObj → SettingsObj
  | none, current => current
  | some none, _ => defaultSettingsObj
  | some (some parsed), _ => objSpread defaultSettingsObj parsed

/-- `saveSettings()`, `script.js` lines 737-739: stores
`JSON.stringify(settings)` under the fixed key; the resulting storage state
parses back to the same object. -/
def saveSettings (s : SettingsObj) : Option (Option SettingsObj) :=
  some (some s)

/-- C4: calling `release()` a second or later time after a first `release()`
has no additional effect: the first call clears the active flag, and any
subsequent call returns immediately without scheduling new ramps,
oscillator stops, or teardown. -/
theorem release_idempotent (v : SynthVoice) (s s2 : Settings) (now now2 : ℚ) :
    ((SynthVoice.release v s now).1).active = false ∧
    SynthVoice.release ((SynthVoice.release v s now).1) s2 now2 =
      ((SynthVoice.release v s now).1, []) := by
  by_cases h : v.active <;> simp [SynthVoice.release, h]

/-- C3: at trigger time `t0` the amp envelope is scheduled as value 0 at
`t0`, a linear ramp to 1 over `max(1/1000, attack)` seconds, then an
exponential-curve ramp down to `max(1/10000, sustain)` over
`max(1/1000, decay)` seconds, and the exponential target is never exactly
0 (it is at least (1/10000 : ℚ), hence positive). -/
theorem amp_envelope_schedule (v : SynthVoice) (s : Settings) (n : ℤ) (t0 sv tv : ℚ)
    (hmem : AutoEvent.expRamp sv tv ∈ (SynthVoice.trigger v s n t0).ampSchedule) :
    (SynthVoice.trigger v s n t0).ampSchedule =
      [AutoEvent.cancel t0, AutoEvent.setValue 0 t0,
       AutoEvent.linearRamp 1 (t0 + max (1/1000 : ℚ) s.attack),
       AutoEvent.expRamp (max (1/10000 : ℚ) s.sustain) (t0 + max (1/1000 : ℚ) s.attack + max (1/1000 : ℚ) s.decay)] ∧
    0 < sv := by
  have hsched : (SynthVoice.trigger v s n t0).ampSchedule =
      [AutoEvent.cancel t0, AutoEvent.setValue 0 t0,
       AutoEvent.linearRamp 1 (t0 + max (1/1000 : ℚ) s.attack),
       AutoEvent.expRamp (max (1/10000 : ℚ) s.sustain) (t0 + max (1/1000 : ℚ) s.attack + max (1/1000 : ℚ) s.decay)] := by
    simp [SynthVoice.trigger]
  refine ⟨hsched, ?_⟩
  rw [hsched] at hmem
  simp only [List.mem_cons, List.not_mem_nil, or_false] at hmem
  rcases hmem with h | h | h | h
  · exact absurd h (by simp)
  · exact absurd h (by simp)
  · exact absurd h (by simp)
  · have hv : sv = max (1/10000 : ℚ) s.sustain := by
      cases h
      rfl
    rw [hv]
    have h1 : (0 : ℚ) < (1/10000 : ℚ) := by norm_num
    exact lt_of_lt_of_le h1 (le_max_left _ _)

/-- C3 witness: the amp envelope of a voice triggered with the default
settings at `t0 = 0`. -/
theorem amp_envelope_schedule_witness :
    (SynthVoice.trigger newSynthVoice defaultSettings 60 0).ampSchedule =
      [AutoEvent.cancel 0, AutoEvent.setValue 0 0,
       AutoEvent.linearRamp 1 (0 + max (1/1000 : ℚ) defaultSettings.attack),
       AutoEvent.expRamp (max (1/10000 : ℚ) defaultSettings.sustain)
         (0 + max (1/1000 : ℚ) defaultSettings.attack + max (1/1000 : ℚ) defaultSettings.decay)] ∧
    (0 : ℚ) < max (1/10000 : ℚ) defaultSettings.sustain :=
  amp_envelope_schedule newSynthVoice defaultSettings 60 0
    (max (1/10000 : ℚ) defaultSettings.sustain)
    (0 + max (1/1000 : ℚ) defaultSettings.attack + max (1/1000 : ℚ) defaultSettings.decay)
    (by simp [SynthVoice.trigger])

/-- C6: starting the arpeggiator resets the step index to 0 and immediately
emits the first step (note 60); stepping 8 times from the start with the
pattern `[0, 4, 7, 12]` and base note 60 emits exactly
`[60, 64, 67, 72, 60, 64, 67, 72]`; the step index advances by one on every
step, wrapping via modulo over the pattern length. -/
theorem arp_start_sequence (st : ArpState) :
    (startArp st).2 = 60 ∧
    ((startArp st).1).arpIndex = 1 ∧
    startArpNotes st 8 = [60, 64, 67, 72, 60, 64, 67, 72] ∧
    ∀ st2 : ArpState, ((playArpStep st2).1).arpIndex = st2.arpIndex + 1 ∧
      (playArpStep st2).2 = 60 + arpPattern.getD (st2.arpIndex % arpPattern.length) 0 := by
  refine ⟨rfl, rfl, ?_, fun st2 => ⟨rfl, rfl⟩⟩
  simp [startArpNotes, arpTicks, playArpStep, arpPattern]

/-- C8: with the lowpass filter type, the base cutoff applied to a voice
filter never exceeds 10000: at trigger time the value is clamped (equal to
10000 whenever the requested `filterFreq` exceeds 10000), and every live
`filterFreq` update emits a `setTargetAtTime` whose target is clamped the
same way. -/
theorem lowpass_cutoff_clamped (v : SynthVoice) (s : Settings) (n : ℤ) (now val t tc tgtv : ℚ)
    (hlp : s.filterType = FilterType.lowpass)
    (hmem : UAction.setTarget AudioParamId.filterFrequency tgtv t tc ∈
      SynthVoice.updateParams v s Param.filterFreq val now) :
    (SynthVoice.trigger v s n now).filterFreqValue ≤ 10000 ∧
    (s.filterFreq > 10000 → (SynthVoice.trigger v s n now).filterFreqValue = 10000) ∧
    tgtv ≤ 10000 ∧
    (val > 10000 → tgtv = 10000) := by
  have htrig : (SynthVoice.trigger v s n now).filterFreqValue =
      if s.filterType = FilterType.lowpass ∧ s.filterFreq > 10000 then (10000 : ℚ) else s.filterFreq := by
    simp [SynthVoice.trigger]
  have htgt : tgtv = if s.filterType = FilterType.lowpass ∧ val > 10000 then (10000 : ℚ) else val := by
    by_cases hact : v.active
    · simp only [SynthVoice.updateParams, hact, Bool.not_true, Bool.false_eq_true, if_false,
        List.mem_singleton] at hmem
      cases hmem
      rfl
    · simp [SynthVoice.updateParams, hact] at hmem
  refine ⟨?_, ?_, ?_, ?_⟩
  · rw [htrig]
    by_cases hf : s.filterFreq > 10000
    · simp [hlp, hf]
    · simp [hf]
      exact le_of_not_lt hf
  · intro hf
    rw [htrig]
    simp [hlp, hf]
  · rw [htgt]
    by_cases hv : val > 10000
    · simp [hlp, hv]
    · simp [hv]
      exact le_of_not_lt hv
  · intro hv
    rw [htgt]
    simp [hlp, hv]

/-- C8 witness: a live voice under the default (lowpass) settings with a
requested cutoff of 20000 is clamped to 10000 at trigger time and on the
live update. -/
theorem lowpass_cutoff_clamped_witness :
    (SynthVoice.trigger newSynthVoice { defaultSettings with filterFreq := 20000 } 60 0).filterFreqValue ≤ 10000 ∧
    (SynthVoice.trigger newSynthVoice { defaultSettings with filterFreq := 20000 } 60 0).filterFreqValue = 10000 ∧
    (10000 : ℚ) ≤ 10000 ∧
    (10000 : ℚ) = 10000 := by
  have h := lowpass_cutoff_clamped
    (SynthVoice.trigger newSynthVoice { defaultSettings with filterFreq := 20000 } 60 0)
    { defaultSettings with filterFreq := 20000 } 60 0 20000 0 (1/20 : ℚ) 10000
    rfl
    (by norm_num [SynthVoice.updateParams, SynthVoice.trigger, defaultSettings])
  exact ⟨h.1, h.2.1 (by norm_num), h.2.2.1, h.2.2.2 (by norm_num)⟩

/-- C9 counterexample: a MIDI CC edit (incoming controller number 1, value
127, mapped to `filterQ = 20`) updates the in-memory settings but does not
write the snapshot back to storage, so after the handler returns the stored
snapshot does not equal the in-memory settings. -/
theorem cc_edit_not_persisted :
    ¬ ((mapCCApply (AppState.mk defaultSettings (some defaultSettings)) Param.filterQ 20).storage =
        some ((mapCCApply (AppState.mk defaultSettings (some defaultSettings)) Param.filterQ 20).settings)) := by
  norm_num [mapCCApply, setParam, defaultSettings]

/-- C9 amended: a UI control edit (the shared `input` handler) persists the
full updated settings snapshot before returning, so storage equals the
in-memory settings; a MIDI CC edit updates the in-memory settings (shown
here on `filterQ`) but leaves the storage snapshot untouched. -/
theorem ui_edit_persisted_cc_edit_not (st : AppState) (p : Param) (v : ℚ) :
    (uiInputHandler st p v).storage = some ((uiInputHandler st p v).settings) ∧
    (mapCCApply st p v).storage = st.storage ∧
    ((mapCCApply st Param.filterQ v).settings).filterQ = v := by
  refine ⟨rfl, rfl, ?_⟩
  simp [mapCCApply, setParam]

/-- C10: MIDI realtime status bytes 0xF8, 0xFA and 0xFC are dispatched
before the channel filter is consulted, so the resulting effect is the same
for every selected channel (omni included); and for any non-realtime status
whose command nibble is neither note-on nor note-off, the channel setting
is also irrelevant — the channel filter can only affect note messages. -/
theorem realtime_channel_independent (a p : Bool) (ch ch2 : ℤ) (status st2 d1 d2 : ℕ)
    (hrt : status = 0xF8 ∨ status = 0xFA ∨ status = 0xFC)
    (h1 : st2 ≠ 0xF8) (h2 : st2 ≠ 0xFA) (h3 : st2 ≠ 0xFC)
    (h4 : st2 &&& 0xf0 ≠ 144) (h5 : st2 &&& 0xf0 ≠ 128) :
    handleNoteMsg a p ch status d1 d2 = handleNoteMsg a p ch2 status d1 d2 ∧
    handleNoteMsg a p ch st2 d1 d2 = handleNoteMsg a p ch2 st2 d1 d2 := by
  constructor
  · rcases hrt with h | h | h <;> subst h <;> simp [handleNoteMsg]
  · simp [handleNoteMsg, h1, h2, h3, h4, h5]

/-- C10 witness: a clock byte (0xF8) is handled identically under omni
(-1) and channel 5, and a CC status byte (0xB0) not matching the note
commands is also channel-independent in `handleNoteMsg`. -/
theorem realtime_channel_independent_witness :
    handleNoteMsg true false (-1) 0xF8 0 0 = handleNoteMsg true false 5 0xF8 0 0 ∧
    handleNoteMsg true false (-1) 0xB0 0 0 = handleNoteMsg true false 5 0xB0 0 0 :=
  realtime_channel_independent true false (-1) 5 0xF8 0xB0 0 0
    (Or.inl rfl) (by decide) (by decide) (by decide) (by decide) (by decide)

/-- Helper: `mapSet` grows the map by at most one entry. -/
theorem mapSet_length_le (m : VoiceMap) (k : ℤ) (v : SynthVoice) :
    (mapSet m k v).length ≤ m.length + 1 := by
  unfold mapSet
  split
  · simp
  · simp

/-- Helper: `mapDelete` never grows the map. -/
theorem mapDelete_length_le (m : VoiceMap) (k : ℤ) :
    (mapDelete m k).length ≤ m.length :=
  List.length_filter_le _ _

/-- Helper: deleting the head key of a nonempty map removes at least the
head entry. -/
theorem mapDelete_head_length (k : ℤ) (v : SynthVoice) (rest : VoiceMap) :
    (mapDelete ((k, v) :: rest) k).length ≤ rest.length := by
  simp only [mapDelete, List.filter_cons, bne_self_eq_false, Bool.false_eq_true, if_false]
  exact List.length_filter_le _ rest

/-- Helper: after the stealing prelude the map has strictly fewer than
`MAX_VOICES` entries whenever it was within the bound before. -/
theorem noteOnEvict_length_lt (m : VoiceMap) (h : m.length ≤ MAX_VOICES) :
    (noteOnEvict m).1.length < MAX_VOICES := by
  match m with
  | [] => simp [noteOnEvict, MAX_VOICES]
  | (k, v) :: rest =>
    have h8 : MAX_VOICES = 8 := rfl
    simp only [List.length_cons] at h
    by_cases hc : MAX_VOICES ≤ ((k, v) :: rest).length
    · have hd := mapDelete_head_length k v rest
      have he : noteOnEvict ((k, v) :: rest) = (mapDelete ((k, v) :: rest) k, [AllocAction.released k]) := by
        unfold noteOnEvict
        rw [if_pos hc]
      have hlen : (noteOnEvict ((k, v) :: rest)).1.length ≤ rest.length := by
        rw [he]
        exact hd
      omega
    · have he : noteOnEvict ((k, v) :: rest) = ((k, v) :: rest, []) := by
        unfold noteOnEvict
        rw [if_neg hc]
      have hlen : (noteOnEvict ((k, v) :: rest)).1.length = rest.length + 1 := by
        rw [he]
        simp
      simp only [List.length_cons] at hc
      omega

/-- Helper: `noteOn` preserves the polyphony bound. -/
theorem noteOn_length_le (s : Settings) (m : VoiceMap) (n : ℤ) (now : ℚ)
    (h : m.length ≤ MAX_VOICES) :
    (noteOn s m n now).1.length ≤ MAX_VOICES := by
  have h1 := noteOnEvict_length_lt m h
  have h2 := mapSet_length_le (noteOnEvict m).1 n (SynthVoice.trigger newSynthVoice s n now)
  simp only [noteOn]
  omega

/-- Helper: `noteOff` never grows the map. -/
theorem noteOff_length_le (m : VoiceMap) (n : ℤ) :
    (noteOff m n).1.length ≤ m.length := by
  unfold noteOff
  split
  · exact mapDelete_length_le m n
  · simp

/-- Helper: the polyphony bound is preserved by every event sequence. -/
theorem runEvents_length_le (s : Settings) (now : ℚ) (evs : List NoteEvent) :
    ∀ m : VoiceMap, m.length ≤ MAX_VOICES → (runEvents s now evs m).length ≤ MAX_VOICES := by
  induction evs with
  | nil => intro m h; simpa [runEvents] using h
  | cons e rest ih =>
    intro m h
    rcases e with n | n
    · have hl := noteOn_length_le s m n now h
      simpa [runEvents] using ih _ hl
    · have hl : (noteOff m n).1.length ≤ MAX_VOICES := le_trans (noteOff_length_le m n) h
      simpa [runEvents] using ih _ hl

/-- Helper: overwriting an entry keeps every key in place. -/
theorem fst_mapSet_entry (k : ℤ) (v : SynthVoice) (p : ℤ × SynthVoice) :
    (if p.1 == k then (k, v) else p).1 = p.1 := by
  split
  next h =>
    simp only [beq_iff_eq] at h
    simp [h]
  next => rfl

/-- Helper: `mapSet` of an existing key leaves the key list unchanged. -/
theorem keys_mapSet_map (m : VoiceMap) (k : ℤ) (v : SynthVoice)
    (hany : m.any (fun p => p.1 == k) = true) :
    (mapSet m k v).map Prod.fst = m.map Prod.fst := by
  simp only [mapSet, hany, if_true]
  rw [List.map_map]
  apply List.map_congr_left
  intro p _
  exact fst_mapSet_entry k v p

/-- Helper: the inserted key is always present after `mapSet`. -/
theorem mem_keys_mapSet (m : VoiceMap) (k : ℤ) (v : SynthVoice) :
    k ∈ (mapSet m k v).map Prod.fst := by
  by_cases hany : m.any (fun p => p.1 == k) = true
  · rw [keys_mapSet_map m k v hany]
    rcases List.any_eq_true.mp hany with ⟨p, hp, hpk⟩
    simp only [beq_iff_eq] at hpk
    exact List.mem_map.mpr ⟨p, hp, hpk⟩
  · simp [mapSet, hany]

/-- Helper: `mapSet` introduces no key other than the inserted one. -/
theorem keys_mapSet_subset (m : VoiceMap) (k : ℤ) (v : SynthVoice) (x : ℤ)
    (hx : x ∈ (mapSet m k v).map Prod.fst) :
    x ∈ m.map Prod.fst ∨ x = k := by
  by_cases hany : m.any (fun p => p.1 == k) = true
  · rw [keys_mapSet_map m k v hany] at hx
    exact Or.inl hx
  · simp only [mapSet, hany, if_false, Bool.false_eq_true, List.map_append, List.map_cons,
      List.map_nil, List.mem_append, List.mem_singleton] at hx
    rcases hx with h | h
    · exact Or.inl h
    · exact Or.inr h

/-- Helper: the deleted key is gone from the key list. -/
theorem not_mem_keys_mapDelete (m : VoiceMap) (k : ℤ) :
    k ∉ (mapDelete m k).map Prod.fst := by
  intro hmem
  rcases List.mem_map.mp hmem with ⟨p, hp, hfst⟩
  simp only [mapDelete, List.mem_filter] at hp
  rcases hp with ⟨_, hp2⟩
  rw [hfst] at hp2
  simp at hp2

/-- C1: after any sequence of `noteOn` and `noteOff` calls starting from the
empty map, `activeVoices` holds at most `MAX_VOICES` (8) entries; and when
`noteOn` runs while exactly 8 voices are active, the earliest-inserted voice
is released and removed before the new voice is triggered and inserted: the
action trace is release-of-the-first-key then trigger-of-the-new-note, the
first key is gone from the resulting map (when it differs from the new
note), and the new note is present. -/
theorem voice_limit_and_oldest_steal (s : Settings) (now : ℚ) (evs : List NoteEvent)
    (k n : ℤ) (v : SynthVoice) (rest : VoiceMap)
    (h8 : ((k, v) :: rest).length = MAX_VOICES) :
    (runEvents s now evs []).length ≤ MAX_VOICES ∧
    (noteOn s ((k, v) :: rest) n now).2 = [AllocAction.released k, AllocAction.triggered n] ∧
    (n ≠ k → k ∉ ((noteOn s ((k, v) :: rest) n now).1.map Prod.fst)) ∧
    n ∈ ((noteOn s ((k, v) :: rest) n now).1.map Prod.fst) := by
  have hc : MAX_VOICES ≤ ((k, v) :: rest).length := le_of_eq h8.symm
  have he : noteOnEvict ((k, v) :: rest) = (mapDelete ((k, v) :: rest) k, [AllocAction.released k]) := by
    unfold noteOnEvict
    rw [if_pos hc]
  have hres : (noteOn s ((k, v) :: rest) n now).1 =
      mapSet (mapDelete ((k, v) :: rest) k) n (SynthVoice.trigger newSynthVoice s n now) := by
    simp [noteOn, he]
  refine ⟨runEvents_length_le s now evs [] (by simp [MAX_VOICES]), ?_, ?_, ?_⟩
  · simp [noteOn, he]
  · intro hnk hkmem
    rw [hres] at hkmem
    rcases keys_mapSet_subset _ n _ k hkmem with h | h
    · exact not_mem_keys_mapDelete _ k h
    · exact hnk h.symm
  · rw [hres]
    exact mem_keys_mapSet _ n _

/-- C1 witness: with eight active voices keyed 0..7 (oldest first), a ninth
`noteOn` for note 60 releases and removes the voice keyed 0 and inserts
note 60; and a short concrete event sequence respects the bound. -/
theorem voice_limit_and_oldest_steal_witness :
    (runEvents defaultSettings 0 [NoteEvent.on 60, NoteEvent.on 61, NoteEvent.off 60] []).length ≤ MAX_VOICES ∧
    (noteOn defaultSettings ((0, newSynthVoice) ::
        [(1, newSynthVoice), (2, newSynthVoice), (3, newSynthVoice), (4, newSynthVoice),
         (5, newSynthVoice), (6, newSynthVoice), (7, newSynthVoice)]) 60 0).2 =
      [AllocAction.released 0, AllocAction.triggered 60] ∧
    (0 : ℤ) ∉ (((noteOn defaultSettings ((0, newSynthVoice) ::
        [(1, newSynthVoice), (2, newSynthVoice), (3, newSynthVoice), (4, newSynthVoice),
         (5, newSynthVoice), (6, newSynthVoice), (7, newSynthVoice)]) 60 0).1).map Prod.fst) ∧
    (60 : ℤ) ∈ (((noteOn defaultSettings ((0, newSynthVoice) ::
        [(1, newSynthVoice), (2, newSynthVoice), (3, newSynthVoice), (4, newSynthVoice),
         (5, newSynthVoice), (6, newSynthVoice), (7, newSynthVoice)]) 60 0).1).map Prod.fst) := by
  have h := voice_limit_and_oldest_steal defaultSettings 0
    [NoteEvent.on 60, NoteEvent.on 61, NoteEvent.off 60] 0 60 newSynthVoice
    [(1, newSynthVoice), (2, newSynthVoice), (3, newSynthVoice), (4, newSynthVoice),
     (5, newSynthVoice), (6, newSynthVoice), (7, newSynthVoice)] rfl
  exact ⟨h.1, h.2.1, h.2.2.1 (by decide), h.2.2.2⟩

/-- Helper: key lookup distributes over list append. -/
theorem lookupObj_append (l1 l2 : SettingsObj) (key : String) :
    lookupObj (l1 ++ l2) key =
      match lookupObj l1 key with
      | some v => some v
      | none => lookupObj l2 key := by
  induction l1 with
  | nil => simp [lookupObj]
  | cons hd tl ih =>
    rcases hd with ⟨k1, v1⟩
    by_cases h : k1 = key
    · simp [lookupObj, h]
    · simp [lookupObj, h, ih]

/-- Helper: lookup in the overridden-base part of a spread. -/
theorem lookupObj_spreadMap (base upd : SettingsObj) (key : String) :
    lookupObj (base.map (fun p =>
      match lookupObj upd p.1 with
      | some v2 => (p.1, v2)
      | none => p)) key =
      match lookupObj base key with
      | some v =>
        match lookupObj upd key with
        | some v2 => some v2
        | none => some v
      | none => none := by
  induction base with
  | nil => simp [lookupObj]
  | cons hd tl ih =>
    rcases hd with ⟨k1, v1⟩
    by_cases h : k1 = key
    · subst h
      cases hu : lookupObj upd k1 <;> simp [lookupObj, hu]
    · cases hu : lookupObj upd k1 <;> simp [lookupObj, h, ih, hu]

/-- Helper: lookup in the new-keys part of a spread, for a key absent from
the base. -/
theorem lookupObj_filter_not_in_base (base upd : SettingsObj) (key : String)
    (hb : lookupObj base key = none) :
    lookupObj (upd.filter (fun q => (lookupObj base q.1).isNone)) key = lookupObj upd key := by
  induction upd with
  | nil => simp
  | cons hd tl ih =>
    rcases hd with ⟨k1, v1⟩
    by_cases h : k1 = key
    · subst h
      have hkeep : (lookupObj base k1).isNone = true := by rw [hb]; rfl
      simp [List.filter_cons, hkeep, lookupObj]
    · cases hf : (lookupObj base k1).isNone <;>
        simp [List.filter_cons, hf, lookupObj, h, ih]

/-- Helper: JS spread semantics at the lookup level — the update wins where
present, the base answers otherwise. -/
theorem lookupObj_objSpread (base upd : SettingsObj) (key : String) :
    lookupObj (objSpread base upd) key =
      match lookupObj upd key with
      | some v => some v
      | none => lookupObj base key := by
  unfold objSpread
  rw [lookupObj_append, lookupObj_spreadMap]
  cases hb : lookupObj base key with
  | some v => cases hu : lookupObj upd key <;> simp
  | none =>
    rw [lookupObj_filter_not_in_base base upd key hb]
    cases hu : lookupObj upd key <;> simp

/-- C5: saving the settings and loading them back yields the saved value for
every key present at save time; loading a partially-specified stored object
answers every missing key from the defaults; a stored string that fails to
parse falls back silently to the full defaults, and an absent stored item
leaves the current settings unchanged. -/
theorem settings_save_load_roundtrip (s p c : SettingsObj) (k1 k2 : String) (v : SVal)
    (hs : lookupObj s k1 = some v) (hp : lookupObj p k2 = none) :
    lookupObj (loadSettings (saveSettings s) c) k1 = some v ∧
    lookupObj (loadSettings (some (some p)) c) k2 = lookupObj defaultSettingsObj k2 ∧
    loadSettings (some none) c = defaultSettingsObj ∧
    loadSettings none c = c := by
  refine ⟨?_, ?_, rfl, rfl⟩
  · show lookupObj (objSpread defaultSettingsObj s) k1 = some v
    rw [lookupObj_objSpread, hs]
  · show lookupObj (objSpread defaultSettingsObj p) k2 = lookupObj defaultSettingsObj k2
    rw [lookupObj_objSpread, hp]

/-- C5 witness: round-tripping the defaults recovers `filterFreq = 2000`,
and loading the partial object containing only `filterQ` answers `attack`
from the defaults. -/
theorem settings_save_load_roundtrip_witness :
    lookupObj (loadSettings (saveSettings defaultSettingsObj) []) ("filterFreq") = some (SVal.num 2000) ∧
    lookupObj (loadSettings (some (some [(("filterQ"), SVal.num 3)])) []) ("attack") =
      lookupObj defaultSettingsObj ("attack") ∧
    loadSettings (some none) [] = defaultSettingsObj ∧
    loadSettings none [] = [] :=
  settings_save_load_roundtrip defaultSettingsObj [(("filterQ"), SVal.num 3)] []
    ("filterFreq") ("attack") (SVal.num 2000) (by decide) (by decide)

/-- C2: `noteOn` triggers the new voice at `440 * 2^((n - 69) / 12)` Hz
(`noteOnFreq` is the value of `script.js` line 631); note 69 yields 440 Hz
and note 81 yields 880 Hz; and `noteOn` for note `n` always emits the
trigger of `n`. -/
theorem noteOn_frequency_formula :
    (∀ n : ℤ, noteOnFreq n = 440 * (2 : ℝ) ^ (((n : ℝ) - 69) / 12)) ∧
    noteOnFreq 69 = 440 ∧
    noteOnFreq 81 = 880 ∧
    ∀ (s : Settings) (m : VoiceMap) (n : ℤ) (now : ℚ),
      AllocAction.triggered n ∈ (noteOn s m n now).2 := by
  refine ⟨fun n => rfl, ?_, ?_, ?_⟩
  · unfold noteOnFreq
    have h : ((((69 : ℤ)) : ℝ) - 69) / 12 = 0 := by norm_num
    rw [h, Real.rpow_zero]
    norm_num
  · unfold noteOnFreq
    have h : ((((81 : ℤ)) : ℝ) - 69) / 12 = 1 := by norm_num
    rw [h, Real.rpow_one]
    norm_num
  · intro s m n now
    simp [noteOn]

/-- C7: an incoming CC message is routed through the switch on the 1-based
remapped index `cc + 1`; for incoming controller number 0 (CC index 1) with
the lowpass filter type the mapped cutoff is `20 * 500^(val / 127)`, which
is 10000 Hz at value 127 and 20 Hz at value 0. -/
theorem mapCC_cutoff_and_routing :
    mapCC FilterType.lowpass 0 127 = some (Param.filterFreq, 10000) ∧
    mapCC FilterType.lowpass 0 0 = some (Param.filterFreq, 20) ∧
    ∀ (ft : FilterType) (cc val : ℕ), (mapCC ft cc val).map Prod.fst = ccIndexParam (cc + 1) := by
  refine ⟨?_, ?_, ?_⟩
  · have e : mapCC FilterType.lowpass 0 127 =
        some (Param.filterFreq, 20 * (500 : ℝ) ^ (((127 : ℕ) : ℝ) / 127)) := rfl
    rw [e]
    have h : (((127 : ℕ) : ℝ) / 127) = 1 := by norm_num
    rw [h, Real.rpow_one]
    norm_num
  · have e : mapCC FilterType.lowpass 0 0 =
        some (Param.filterFreq, 20 * (500 : ℝ) ^ (((0 : ℕ) : ℝ) / 127)) := rfl
    rw [e]
    have h : (((0 : ℕ) : ℝ) / 127) = 0 := by norm_num
    rw [h, Real.rpow_zero]
    norm_num
  · intro ft cc val
    rcases cc with _ | _ | _ | _ | _ | _ | _ | _ | _ | _ | _ | _ | _ | _ | _ | _ | cc <;> rfl

end Synth
